import Mathlib

/-!
Verification of the block-reference subsystem of the NanoStore/NanoBlock
collaborative data engine (a yjs fork).  The definitions below are shallow
embeddings of the JavaScript source files:

* `src/unnamed/part_000` — `ContentBlockRef` / `ContentBlockUnref` content
  variants, `resolveRefConflict`, `validateCircularRef`;
* `src/unnamed/part_003` — `NanoBlock`, `updateBlockReferrer`,
  `addUnrefToBlock`;
* `src/unnamed/part_004` — `Transaction`, `StoreTransaction`, `transact`,
  `transactInStore`, `cleanupTransactions`, `resolveBlockRefs`,
  `cleanupConsumedTransaction`;
* `src/src/utils/NanoStore.js` — `NanoStore`;
* `src/unnamed/part_005` — the `testAfterTransactionRecursion` test.

JavaScript objects whose property keys matter (because a read of an absent
property yields `undefined`) are modelled as association lists of
`String × JsVal`; everything else is modelled with plain Lean structures.
Thrown exceptions are modelled with `Except String` or an `Option String`
error component.
-/

namespace NanoYjs

/-- The six block types of the repository
(`BlockType` typedef, src/unnamed/part_003, line 18). -/
inductive BlockType where
  | array | map | text | xmlElement | xmlFragment | xmlText
deriving DecidableEq, Repr

/-- A JavaScript value as far as the option records of this code base are
concerned.  `undefined` is the value of any absent object property. -/
inductive JsVal where
  | undefined
  | str (s : String)
  | num (n : Nat)
deriving DecidableEq, Repr

/-- A JavaScript object literal: a finite list of property assignments. -/
def JsObj := List (String × JsVal)

/-- Property read `o.k`: the value stored at key `k`, or `undefined` when
the key is absent from the object. -/
def jsGet (o : JsObj) (k : String) : JsVal :=
  match o.find? (fun p => p.1 == k) with
  | some p => p.2
  | none => .undefined

/-- An item id `(client, clock)` (`ID` in the source). -/
structure ItemID where
  client : Nat
  clock : Nat
deriving DecidableEq, Repr

/-- State of a `ContentBlockUnref` object
(src/unnamed/part_000, lines 186-213).  The constructor copies the three
properties `blockId`, `client` and `clock` of its options object, so the
fields hold whatever JavaScript values those reads produce. -/
structure ContentBlockUnref where
  blockId : JsVal
  client : JsVal
  clock : JsVal
deriving DecidableEq, Repr

/-- The `ContentBlockUnref` constructor (src/unnamed/part_000,
lines 190-207): reads `opts.blockId`, `opts.client` and `opts.clock`. -/
def ContentBlockUnref.ctor (opts : JsObj) : ContentBlockUnref :=
  { blockId := jsGet opts "blockId"
  , client := jsGet opts "client"
  , clock := jsGet opts "clock" }

/-- The part of a `ContentBlockRef` that `addUnrefToBlock` reads: the ref's
target `blockId` and the id of the item carrying the ref (`ref._item`,
`none` when the content has not been integrated). -/
structure RefForUnref where
  blockId : String
  item : Option ItemID
deriving DecidableEq, Repr

/-- `addUnrefToBlock` (src/unnamed/part_003, lines 302-313): appends one new
`ContentBlockUnref` to the block's internal `"_unrefs"` array (whose current
content is `unrefs`), unless `ref._item` is unset.  The constructor options
object is built with the keys `blockId`, `refClient` and `refClock`,
exactly as in the source. -/
def addUnrefToBlock (unrefs : List ContentBlockUnref) (ref : RefForUnref) :
    List ContentBlockUnref :=
  match ref.item with
  | none => unrefs
  | some it =>
    unrefs ++ [ContentBlockUnref.ctor
      [("blockId", .str ref.blockId),
       ("refClient", .num it.client),
       ("refClock", .num it.clock)]]

/-- The property names assigned on `this` by the `StoreTransaction`
constructor (src/unnamed/part_004, lines 812-845).  Note that
`blockUnrefsAdded` is not among them. -/
def storeTransactionFields : List String :=
  ["store", "origin", "local", "blockTransactions", "rootBlockEvents",
   "blocksAdded", "blockRefsAdded", "blockRefsRemoved"]

/-- The item state `ContentBlockUnref.integrate` mutates. -/
structure UnrefItemSt where
  keep : Bool
deriving DecidableEq, Repr

/-- `ContentBlockUnref.integrate` (src/unnamed/part_000, lines 219-227):
sets `item.keep = true`; then, when the transaction has a store transaction,
executes `transaction.storeTransaction.blockUnrefsAdded.add(this)`.  In
JavaScript the property read yields `undefined` when `blockUnrefsAdded` is
not a field of `StoreTransaction`, and the `.add` call on `undefined` then
throws a TypeError; the returned pair is the item state reached together
with the thrown error, if any. -/
def ContentBlockUnref.integrate (hasStoreTransaction : Bool)
    (item : UnrefItemSt) : UnrefItemSt × Option String :=
  let item := { item with keep := true }
  if hasStoreTransaction then
    if "blockUnrefsAdded" ∈ storeTransactionFields then
      (item, none)
    else
      (item, some "TypeError: cannot call add on undefined blockUnrefsAdded")
  else
    (item, none)

/-- The store state read by the client-id regeneration step: only the
store's own `clientID`. -/
structure NanoStoreView where
  clientID : Nat
deriving DecidableEq, Repr

/-- The block state touched by the client-id regeneration step: the block's
`clientID` and its per-client struct logs (kept opaque; the step never
touches them). -/
structure NanoBlockView where
  clientID : Nat
  structStoreLogs : List (Nat × List Nat)
deriving DecidableEq, Repr

/-- `Map.get` over a state vector: `undefined` (here `none`) for an absent
client. -/
def svGet (m : List (Nat × Nat)) (c : Nat) : Option Nat :=
  (m.find? (fun p => p.1 == c)).map (fun p => p.2)

/-- The client-id regeneration step at the end of transaction cleanup
(src/unnamed/part_004, lines 751-754; the standalone-block path at
lines 347-350 is textually identical): when the transaction is not local
and `afterState.get(block.clientID)` differs from
`beforeState.get(block.clientID)`, the code logs a warning and assigns
`block.clientID = generateNewClientId()` (the random fresh id is the
`freshId` argument).  Nothing else — in particular neither the store's
`clientID` nor the block's struct logs — is written. -/
def clientIdRegenStep (store : NanoStoreView) (block : NanoBlockView)
    (localTr : Bool) (beforeState afterState : List (Nat × Nat))
    (freshId : Nat) : NanoStoreView × NanoBlockView :=
  if !localTr && (svGet afterState block.clientID ≠ svGet beforeState block.clientID) then
    (store, { block with clientID := freshId })
  else
    (store, block)

/-- The concrete class a type instance was constructed from.  `abstract`
stands for a plain `AbstractType` instance (the base class is instantiated
by the repository itself, e.g. as the default in `NanoBlock.get`,
src/unnamed/part_003, line 171). -/
inductive TypeKind where
  | yarray | ymap | ytext | yxmlElement | yxmlFragment | yxmlText | abstract
deriving DecidableEq, Repr

/-- `getBlockTypeFromInstance` (src/unnamed/part_003, lines 346-366): maps a
type instance to its `BlockType` tag via `instanceof` checks and throws
`Unexpected type` for an instance of none of the six concrete classes.
Subclass relations among the six concrete classes are defined outside the
given sources; they can only change which tag is returned, never whether
the function throws, and no claim depends on the tag, so each kind is
mapped to its own tag here. -/
def getBlockTypeFromInstance (k : TypeKind) : Except String BlockType :=
  match k with
  | .yarray => .ok .array
  | .ymap => .ok .map
  | .ytext => .ok .text
  | .yxmlElement => .ok .xmlElement
  | .yxmlFragment => .ok .xmlFragment
  | .yxmlText => .ok .xmlText
  | .abstract => .error "Unexpected type"

/-- The part of a block the `ContentBlockRef` constructor reads: its `id`
and the identity of its root type instance (`block.getType()`), represented
by an identity tag. -/
structure BlockOfTypeView where
  id : String
  rootTid : Nat
deriving DecidableEq, Repr

/-- The part of an `AbstractType` instance the `ContentBlockRef` constructor
reads: its concrete class, its object identity (`tid`), and the block it
belongs to, if any. -/
structure AbstractTypeView where
  kind : TypeKind
  tid : Nat
  block : Option BlockOfTypeView
deriving DecidableEq, Repr

/-- Fields of a freshly constructed `ContentBlockRef`
(src/unnamed/part_000, lines 23-67): `blockId` (initially the empty
string), `blockType` (`none` models the initial empty-string tag), the
caches `blk` (`_block`, as a block id) and `typ` (`_type`, as the identity
tag of the cached type), and `item` (`_item`, always `null` right after
construction). -/
structure ContentBlockRefSt where
  blockId : String
  blockType : Option BlockType
  blk : Option String
  typ : Option Nat
  item : Option ItemID
deriving DecidableEq, Repr

/-- The `ContentBlockRef` constructor (src/unnamed/part_000, lines 23-67).
`.inl` is the `AbstractType` branch: it throws when the type belongs to a
block but is not that block's root type (`type.block.getType() !== type`),
otherwise sets `_type`, computes `blockType` via `getBlockTypeFromInstance`
(which may itself throw), and, when the type belongs to a block, sets
`_block` and `blockId`.  `.inr` is the decoded-options branch. -/
def ContentBlockRef.ctor (opt : AbstractTypeView ⊕ (String × BlockType)) :
    Except String ContentBlockRefSt :=
  match opt with
  | .inl t =>
    match t.block with
    | some b =>
      if b.rootTid ≠ t.tid then
        .error "You can create a ref only for the root type of a block"
      else
        match getBlockTypeFromInstance t.kind with
        | .error e => .error e
        | .ok bt =>
          .ok { blockId := b.id, blockType := some bt, blk := some b.id,
                typ := some t.tid, item := none }
    | none =>
      match getBlockTypeFromInstance t.kind with
      | .error e => .error e
      | .ok bt =>
        .ok { blockId := "", blockType := some bt, blk := none,
              typ := some t.tid, item := none }
  | .inr (bid, bt) =>
    .ok { blockId := bid, blockType := some bt, blk := none,
          typ := none, item := none }

/-- A block as registered in a `NanoStore` (src/src/utils/NanoStore.js):
for the purposes of `getOrCreateBlock` only its `id` and `blockType`
matter. -/
structure StoreBlockSt where
  id : String
  blockType : BlockType
deriving DecidableEq, Repr

/-- `Map.set`: overwrite the entry at `k`, or append a new one. -/
def listSet (l : List (String × StoreBlockSt)) (k : String) (v : StoreBlockSt) :
    List (String × StoreBlockSt) :=
  if l.any (fun p => p.1 == k) then
    l.map (fun p => if p.1 == k then (k, v) else p)
  else
    l ++ [(k, v)]

/-- The `NanoStore` block registry (src/src/utils/NanoStore.js, `blocks`). -/
structure NanoStoreSt where
  blocks : List (String × StoreBlockSt)
deriving DecidableEq, Repr

/-- `NanoStore.getBlock` (src/src/utils/NanoStore.js, lines 132-134):
`this.blocks.get(id)`. -/
def NanoStoreSt.getBlock (s : NanoStoreSt) (id : String) : Option StoreBlockSt :=
  (s.blocks.find? (fun p => p.1 == id)).map (fun p => p.2)

/-- `NanoStore.createBlock` (src/src/utils/NanoStore.js, lines 154-162):
constructs a `NanoBlock` with the given type and optional id (the random
fresh id the `NanoBlock` constructor would generate is the `freshId`
argument) and registers it in `blocks`. -/
def NanoStoreSt.createBlock (s : NanoStoreSt) (t : BlockType)
    (id : Option String) (freshId : String) : NanoStoreSt × StoreBlockSt :=
  let b : StoreBlockSt := { id := id.getD freshId, blockType := t }
  ({ blocks := listSet s.blocks b.id b }, b)

/-- `NanoStore.getOrCreateBlock` (src/src/utils/NanoStore.js,
lines 141-147): returns the registered block with the given id when one
exists — with no check of its `blockType` against the requested `type` —
and otherwise creates and registers a new block of the requested type. -/
def NanoStoreSt.getOrCreateBlock (s : NanoStoreSt) (id : String)
    (t : BlockType) (freshId : String) : NanoStoreSt × StoreBlockSt :=
  match s.getBlock id with
  | some b => (s, b)
  | none => s.createBlock t (some id) freshId

/-! ### Item graph: flags, left chains and the referrer chain

`validateCircularRef` and the conflict-resolution loops read item flags
(`deleted`, `countable`), the map key `parentSub`, the `left` neighbour
chain, the block an item belongs to (`item.block`) and each block's
`_referrer` backlink.  These object-graph reads are modelled as functions;
items are identified by a `Nat` identity. -/
structure ItemGraph where
  deleted : Nat → Bool
  countable : Nat → Bool
  parentSub : Nat → Option String
  left : Nat → Option Nat
  itemBlock : Nat → Option String
  referrer : String → Option Nat

/-- The index-computation loop of `validateCircularRef`
(src/unnamed/part_000, lines 449-457; the same loop appears in
`resolveRefConflict`, lines 347-355, and in the conflict-handling loop of
`resolveBlockRefs`, src/unnamed/part_004, lines 589-597):
`index = 0; while (item !== null) { if (!item.deleted && item.countable)
index++; item = item.left }`.  The first argument is loop fuel; the loop
result is correct whenever the fuel suffices to reach the start of the
chain (established against `leftChainList` below). -/
def countLeftLoop (g : ItemGraph) : Nat → Option Nat → Nat
  | 0, _ => 0
  | _ + 1, none => 0
  | fuel + 1, some it =>
    (if !g.deleted it && g.countable it then 1 else 0) +
      countLeftLoop g fuel (g.left it)

/-- Claim-side enumeration of the `left` chain starting at a given
neighbour: `some L` lists the items to the left, nearest first; `none` when
the fuel does not reach the start of the chain. -/
def leftChainList (g : ItemGraph) : Nat → Option Nat → Option (List Nat)
  | 0, _ => none
  | _ + 1, none => some []
  | fuel + 1, some it => (leftChainList g fuel (g.left it)).map (fun l => it :: l)

/-- The referrer-chain walk of `validateCircularRef`
(src/unnamed/part_000, lines 430-439): starting at the Ref's own item,
`while (n?.block) { if (n.block.id === blockId) found; n = n.block._referrer }`.
Returns `some found` when the loop ends within the fuel, `none` when it
does not. -/
def refChainFind (g : ItemGraph) (blockId : String) : Nat → Option Nat → Option Bool
  | 0, _ => none
  | _ + 1, none => some false
  | fuel + 1, some n =>
    match g.itemBlock n with
    | none => some false
    | some b =>
      if b = blockId then some true
      else refChainFind g blockId fuel (g.referrer b)

/-- Claim-side enumeration of the blocks on the chain
`item → item.block → block._referrer → …`: `some bs` lists every block id
the full chain visits before ending; `none` when the fuel does not reach
the end of the chain. -/
def chainBlocksFrom (g : ItemGraph) : Nat → Option Nat → Option (List String)
  | 0, _ => none
  | _ + 1, none => some []
  | fuel + 1, some n =>
    match g.itemBlock n with
    | none => some []
    | some b => (chainBlocksFrom g fuel (g.referrer b)).map (fun l => b :: l)

/-- A call the block-ref code makes on the parent container of an item.
`mapSet` / `arrayInsert` carry the id of the block whose fresh clone is
inserted. -/
inductive ContainerAct where
  | mapDelete (key : String)
  | mapSet (key : String) (cloneOf : String)
  | arrayDelete (index : Nat)
  | arrayInsert (index : Nat) (cloneOf : String)
deriving DecidableEq, Repr

/-- `validateCircularRef` (src/unnamed/part_000, lines 427-461) as the list
of container calls it performs: `some acts` when the chain walk ends within
`walkFuel`, `none` otherwise.  `itemId` is the Ref's item, `blockId` its
content's target block id.  Faithful to the JavaScript conditions: the map
branch requires `item.parentSub` to be *truthy* (a non-empty string), the
array branch requires it to be loosely equal to `null`; an empty-string
`parentSub` therefore selects neither branch. -/
def validateCircularRef (g : ItemGraph) (itemId : Nat) (blockId : String)
    (walkFuel leftFuel : Nat) : Option (List ContainerAct) :=
  if g.deleted itemId then some []
  else
    match refChainFind g blockId walkFuel (some itemId) with
    | none => none
    | some false => some []
    | some true =>
      match g.parentSub itemId with
      | some key =>
        if key ≠ "" then some [.mapDelete key] else some []
      | none =>
        some [.arrayDelete (countLeftLoop g leftFuel (g.left itemId))]

/-- A concrete item graph for the empty-string-key corner of
`validateCircularRef`: item `0` is not deleted, lives in a map under the
key `""`, and belongs to block `"A"` (so a walk for target `"A"` finds a
cycle immediately); block `"A"` has no referrer. -/
def emptyKeyGraph : ItemGraph :=
  { deleted := fun _ => false
  , countable := fun _ => true
  , parentSub := fun _ => some ""
  , left := fun _ => none
  , itemBlock := fun i => if i = 0 then some "A" else none
  , referrer := fun _ => none }

/-- A concrete item graph for the array case of `validateCircularRef`:
item `0` (not deleted, sequence position, one countable non-deleted left
neighbour `1`) belongs to block `"B"`, whose referrer item `2` belongs to
block `"A"`; block `"A"` has no referrer. -/
def arrayCaseGraph : ItemGraph :=
  { deleted := fun _ => false
  , countable := fun _ => true
  , parentSub := fun _ => none
  , left := fun i => if i = 0 then some 1 else none
  , itemBlock := fun i => if i = 0 then some "B" else if i = 2 then some "A" else none
  , referrer := fun b => if b = "B" then some 2 else none }

/-! ### Store-transaction ref bookkeeping (`blockRefsAdded` / `blockRefsRemoved`) -/

/-- The two bookkeeping operations a `ContentBlockRef` performs on the
store transaction during its lifetime. -/
inductive RefOp where
  | integrateRef (r : Nat)
  | deleteRef (r : Nat)
deriving DecidableEq, Repr

/-- The `blockRefsAdded` / `blockRefsRemoved` sets of a `StoreTransaction`
(src/unnamed/part_004, lines 836-844), modelled as duplicate-free lists in
insertion order. -/
structure RefSets where
  added : List Nat
  removed : List Nat
deriving DecidableEq, Repr

/-- JavaScript `Set.add`: append unless already present. -/
def setAdd (l : List Nat) (r : Nat) : List Nat :=
  if r ∈ l then l else l ++ [r]

/-- One bookkeeping step.  `integrateRef` is
`transaction.storeTransaction.blockRefsAdded.add(this)` from
`ContentBlockRef.integrate` (src/unnamed/part_000, line 78).  `deleteRef`
is the update from `ContentBlockRef.delete` (src/unnamed/part_000,
lines 124-133): if the ref is in `blockRefsAdded` it is removed from
there, otherwise it is added to `blockRefsRemoved`. -/
def refSetsStep (s : RefSets) : RefOp → RefSets
  | .integrateRef r => { s with added := setAdd s.added r }
  | .deleteRef r =>
    if r ∈ s.added then { s with added := s.added.erase r }
    else { s with removed := setAdd s.removed r }

/-- The bookkeeping state after a sequence of operations, starting from the
fresh store transaction's empty sets. -/
def runRefOps (t : List RefOp) : RefSets :=
  t.foldl refSetsStep ⟨[], []⟩

/-- Item-lifecycle constraint on an operation sequence, inherited from the
base CRDT: a given content object is deleted at most once, and is never
integrated after it has been deleted.  Stated pairwise over the sequence:
whatever follows a `deleteRef r` is neither a `deleteRef r` nor an
`integrateRef r`. -/
def RefLifecycle (t : List RefOp) : Prop :=
  t.Pairwise (fun a b => ∀ r, a = RefOp.deleteRef r →
    b ≠ RefOp.integrateRef r ∧ b ≠ RefOp.deleteRef r)

/-! ### Referrer state and the ref-conflict resolver -/

/-- A `ContentBlockRef` object as the referrer machinery sees it:
the serialized `blockId` / `blockType`, the caches `blk` (`_block`, as a
block id) and `typ` (`_type`, as the id of the block whose root type is
cached), and `item` (`_item`, as an item identity). -/
structure RefC where
  blockId : String
  blockType : BlockType
  blk : Option String
  typ : Option String
  item : Option Nat
deriving DecidableEq, Repr

/-- A `NanoBlock` as the referrer machinery sees it
(src/unnamed/part_003): its id, type and the `_referrer` /
`_prevReferrer` backlinks (item identities). -/
structure BlockC where
  id : String
  blockType : BlockType
  referrer : Option Nat
  prevReferrer : Option Nat
deriving DecidableEq, Repr

/-- The heap of `ContentBlockRef` objects: `refs` maps a ref identity to
its state, `itemContent` maps an item identity to the identity of the
`ContentBlockRef` it carries as content (`item.content`). -/
structure RefHeap where
  refs : List (Nat × RefC)
  itemContent : List (Nat × Nat)
deriving DecidableEq, Repr

/-- Association-list lookup (JavaScript `Map.get`; `undefined` is `none`). -/
def alookup {κ α : Type} [BEq κ] (l : List (κ × α)) (k : κ) : Option α :=
  (l.find? (fun p => p.1 == k)).map (fun p => p.2)

/-- Point update of the entry at key `k` of an association list. -/
def aupdate {κ α : Type} [BEq κ] (l : List (κ × α)) (k : κ) (f : α → α) :
    List (κ × α) :=
  l.map (fun p => if p.1 == k then (p.1, f p.2) else p)

/-- `h.ref? rid`: the state of the `ContentBlockRef` with identity `rid`. -/
def RefHeap.ref? (h : RefHeap) (rid : Nat) : Option RefC :=
  alookup h.refs rid

/-- `item.content` as a ref identity. -/
def RefHeap.contentOf (h : RefHeap) (it : Nat) : Option Nat :=
  alookup h.itemContent it

/-- Point update of one ref object on the heap. -/
def RefHeap.updRef (h : RefHeap) (rid : Nat) (f : RefC → RefC) : RefHeap :=
  { h with refs := aupdate h.refs rid f }

/-- `item.content._block = null; item.content._type = null` for the ref
carried by item `it` — the clearing writes of `updateBlockReferrer` and of
the remote branch of `resolveBlockRefs`.  A model-level miss (an item
carrying no ref on the heap) leaves the heap unchanged; in the source the
referrer item always carries a `ContentBlockRef`. -/
def RefHeap.clearItemContent (h : RefHeap) (it : Nat) : RefHeap :=
  match h.contentOf it with
  | some rid => h.updRef rid (fun r => { r with blk := none, typ := none })
  | none => h

/-- `updateBlockReferrer` (src/unnamed/part_003, lines 278-296).  Given the
heap, the block and `refItem` (`none` for the `null` argument, `some rid`
for a `ContentBlockRef`), returns the updated heap and block.  Clearing
branch: when `refItem` is `null` and the block has a referrer, the old
referrer content's `_block` / `_type` are nulled, `_prevReferrer` is
recorded (when `updatePrev`), and `_referrer` is nulled.  Installing
branch: when `refItem` is non-null and the block's current referrer
differs from `refItem._item`, the old content's caches are nulled and
`_prevReferrer` recorded first; then `_referrer = refItem._item`. -/
def updateBlockReferrer (h : RefHeap) (b : BlockC) (refItem : Option Nat)
    (updatePrev : Bool) : RefHeap × BlockC :=
  match refItem with
  | none =>
    match b.referrer with
    | some old =>
      let h := h.clearItemContent old
      let b := if updatePrev then { b with prevReferrer := some old } else b
      (h, { b with referrer := none })
    | none => (h, b)
  | some rid =>
    let refIt := ((h.ref? rid).bind (fun r => r.item))
    match b.referrer with
    | some old =>
      if some old ≠ refIt then
        let h := h.clearItemContent old
        let b := if updatePrev then { b with prevReferrer := some old } else b
        (h, { b with referrer := refIt })
      else
        (h, { b with referrer := refIt })
    | none => (h, { b with referrer := refIt })

/-- The store state the resolver works on: the block registry plus the
`ContentBlockRef` heap. -/
structure RState where
  blocks : List (String × BlockC)
  heap : RefHeap
deriving DecidableEq, Repr

/-- Block-registry lookup (`store.getBlock`). -/
def RState.block? (s : RState) (id : String) : Option BlockC :=
  alookup s.blocks id

/-- Point update of one registered block. -/
def RState.updBlock (s : RState) (id : String) (f : BlockC → BlockC) : RState :=
  { s with blocks := aupdate s.blocks id f }

/-- Point update of one ref on the heap of the state. -/
def RState.updRef (s : RState) (rid : Nat) (f : RefC → RefC) : RState :=
  { s with heap := s.heap.updRef rid f }

/-- `store.getOrCreateBlock(id, type)` as the resolver uses it
(src/src/utils/NanoStore.js, lines 141-147): return the registered block,
or register a fresh one of the requested type with empty backlinks. -/
def RState.getOrCreateBlock (s : RState) (id : String) (t : BlockType) :
    RState × BlockC :=
  match s.block? id with
  | some b => (s, b)
  | none =>
    let b : BlockC := { id := id, blockType := t, referrer := none, prevReferrer := none }
    ({ s with blocks := s.blocks ++ [(id, b)] }, b)

/-- The fields of a `StoreTransaction` the resolver reads: `local`
(spelled `localTr` here because `local` is reserved in Lean) and the two
ref sets, as identity lists in insertion order. -/
structure StoreTrView where
  localTr : Bool
  blockRefsAdded : List Nat
  blockRefsRemoved : List Nat
deriving DecidableEq, Repr

/-- The body of the conflict-handling loop of `resolveBlockRefs` for one
conflicted ref (src/unnamed/part_004, lines 575-603), as the container
calls it performs: `store.getBlock(conflict.blockId)?.clone()` (recorded as
the `cloneOf` component of the insertion, and skipped when the block is
unregistered), then — by the same JavaScript truthiness conditions as in
`validateCircularRef` — `map.delete(key)` and `map.set(key, block)` when
`parentSub` is a non-empty string, or `array.delete(index)` and
`array.insert(index, [block])` at the counted index when `parentSub` is
null.  The calls are computed against the state at entry to the loop. -/
def processConflict (g : ItemGraph) (leftFuel : Nat) (s : RState) (rid : Nat) :
    List ContainerAct :=
  match s.heap.ref? rid with
  | none => []
  | some r =>
    let blockRegistered := (s.block? r.blockId).isSome
    match r.item with
    | none => []
    | some it =>
      match g.parentSub it with
      | some key =>
        if key ≠ "" then
          [.mapDelete key] ++ (if blockRegistered then [.mapSet key r.blockId] else [])
        else []
      | none =>
        let index := countLeftLoop g leftFuel (g.left it)
        [.arrayDelete index] ++
          (if blockRegistered then [.arrayInsert index r.blockId] else [])

/-- `resolveBlockRefs` (src/unnamed/part_004, lines 522-607).  Returns the
updated state, the `conflicts` list (ref identities, in push order) and the
conflict handling: `none` when `conflicts` is empty (no nested transaction
is opened), `some acts` for the container calls executed inside the single
nested `transactInStore` call.  Structure, in source order: early return
when both ref sets are empty; bucket `blockRefsAdded` by target block id,
extras going to `conflicts`; for each removed ref whose target block's
`_referrer` is exactly the ref's item, record `_prevReferrer` and null
`_referrer`; for each unique added ref, install `_referrer` when the block
has none, treat a differing existing referrer as a conflict (local: the
added ref loses; remote: the added ref wins, the previous referrer content
is cleared and loses); finally handle all conflicts inside one nested
`transactInStore`.  Heap misses on ref identities are skipped (in the
source every member of the sets is a live object). -/
def resolveBlockRefs (g : ItemGraph) (leftFuel : Nat) (s : RState)
    (tr : StoreTrView) : RState × List Nat × Option (List ContainerAct) :=
  if tr.blockRefsAdded = [] ∧ tr.blockRefsRemoved = [] then (s, [], none)
  else
    let bucket := tr.blockRefsAdded.foldl
      (fun (acc : List Nat × List (String × Nat)) rid =>
        match s.heap.ref? rid with
        | none => acc
        | some r =>
          if acc.2.any (fun p => p.1 == r.blockId) then (acc.1 ++ [rid], acc.2)
          else (acc.1, acc.2 ++ [(r.blockId, rid)]))
      ([], [])
    let s := tr.blockRefsRemoved.foldl
      (fun (s : RState) rid =>
        match s.heap.ref? rid with
        | none => s
        | some r =>
          let sb := s.getOrCreateBlock r.blockId r.blockType
          match sb.2.referrer with
          | some old =>
            if r.item = some old then
              sb.1.updBlock r.blockId
                (fun b => { b with prevReferrer := some old, referrer := none })
            else sb.1
          | none => sb.1)
      s
    let step := bucket.2.foldl
      (fun (acc : RState × List Nat) br =>
        match acc.1.heap.ref? br.2 with
        | none => acc
        | some r =>
          let sb := acc.1.getOrCreateBlock br.1 r.blockType
          match sb.2.referrer with
          | some old =>
            if some old ≠ r.item then
              if tr.localTr then (sb.1, acc.2 ++ [br.2])
              else
                let curRid := sb.1.heap.contentOf old
                let s := sb.1.updBlock br.1 (fun b => { b with referrer := r.item })
                let s := s.updRef br.2
                  (fun rr => { rr with blk := some br.1, typ := some br.1 })
                match curRid with
                | some cr =>
                  (s.updRef cr (fun rr => { rr with blk := none, typ := none }),
                   acc.2 ++ [cr])
                | none => (s, acc.2)
            else (sb.1, acc.2)
          | none =>
            let s := sb.1.updBlock br.1 (fun b => { b with referrer := r.item })
            let s := s.updRef br.2
              (fun rr => { rr with blk := some br.1, typ := some br.1 })
            (s, acc.2))
      (s, bucket.1)
    if step.2 = [] then (step.1, [], none)
    else (step.1, step.2, some (step.2.flatMap (processConflict g leftFuel step.1)))

/-- `item.content` carries a ref targeting block `bid`. -/
def RState.itemHasRefTo (s : RState) (i : Nat) (bid : String) : Bool :=
  match s.heap.contentOf i with
  | some rid =>
    match s.heap.ref? rid with
    | some r => r.blockId == bid
    | none => false
  | none => false

/-- The items of the store that are installed as block `b`'s referrer:
items (listed once each) whose content is a Ref with `blockId = b.id` and
which `b._referrer` points at. -/
def installedReferrers (s : RState) (b : BlockC) : List Nat :=
  ((s.heap.itemContent.map Prod.fst).dedup).filter
    (fun i => b.referrer == some i && s.itemHasRefTo i b.id)

/-- A concrete item graph for the conflict scenarios: item `20` (the new
ref's item) sits in a map under key `"x"`, item `10` (the current
referrer) sits in a map under key `"y"`. -/
def conflictGraph : ItemGraph :=
  { deleted := fun _ => false
  , countable := fun _ => true
  , parentSub := fun i => if i = 20 then some "x" else if i = 10 then some "y" else none
  , left := fun _ => none
  , itemBlock := fun _ => none
  , referrer := fun _ => none }

/-- A concrete resolver state for the conflict scenarios: block `"b"` has
referrer item `10`, whose content is ref `2` (caches set); ref `1` targets
`"b"` and is carried by item `20`. -/
def conflictState : RState :=
  { blocks := [("b", { id := "b", blockType := .map, referrer := some 10,
                       prevReferrer := none })]
  , heap :=
    { refs := [(1, { blockId := "b", blockType := .map, blk := none,
                     typ := none, item := some 20 }),
               (2, { blockId := "b", blockType := .map, blk := some "b",
                     typ := some "b", item := some 10 })]
    , itemContent := [(10, 2), (20, 1)] } }

/-! ### The standalone-block transaction queue -/

/-- A defunctionalized transaction body: the closures passed to `transact`
in the `testAfterTransactionRecursion` scenario either mutate text (no
effect on the cleanup queue, modelled as `skip`) or open a further
`block.transact(fn, origin)`. -/
inductive TBody where
  | skip
  | seq (a b : TBody)
  | tcall (origin : String) (body : TBody)
deriving DecidableEq, Repr

/-- The queue state of a standalone block under `transact` /
`cleanupTransactions` (src/unnamed/part_004): `queue` is
`_transactionCleanups` as the origins of the queued transactions, `cur` is
`block._transaction` as the queue index of the active transaction, and
`origins` is the observer's log from the test. -/
structure TQState where
  queue : List String
  cur : Option Nat
  origins : List String
deriving DecidableEq, Repr

mutual

/-- Run a defunctionalized body. -/
def runBody : Nat → TQState → TBody → TQState
  | 0, s, _ => s
  | _ + 1, s, .skip => s
  | fuel + 1, s, .seq a b => runBody fuel (runBody fuel s a) b
  | fuel + 1, s, .tcall o b => runTransact fuel s o b

/-- `transact(block, f, origin)`, standalone path (src/unnamed/part_004,
lines 402-449): when `block._transaction` is non-null the body joins the
active transaction (`initialCall = false`, no cleanup).  Otherwise a new
transaction with the given origin is created and pushed onto
`_transactionCleanups`; after the body, `block._transaction` is nulled and
— only when this transaction is the queue's first element
(`block._transaction === transactionCleanups[0]`) — `cleanupTransactions`
runs from index 0. -/
def runTransact : Nat → TQState → String → TBody → TQState
  | 0, s, _, _ => s
  | fuel + 1, s, o, b =>
    match s.cur with
    | some _ => runBody fuel s b
    | none =>
      let myIdx := s.queue.length
      let s1 : TQState := { s with cur := some myIdx, queue := s.queue ++ [o] }
      let s2 := runBody fuel s1 b
      let s3 : TQState := { s2 with cur := none }
      if myIdx = 0 then runCleanup fuel s3 0 else s3

/-- `cleanupTransactions(transactionCleanups, i)` (src/unnamed/part_004,
lines 254-389), specialized to the `testAfterTransactionRecursion` setup
(src/unnamed/part_005): the only registered observer is the test's
`afterTransaction` handler, and the delete-set / GC / merge / update
bookkeeping of the source does not touch the queue or the origins log, so
it is elided here.  For the transaction at index `i` the handler runs:
it pushes the transaction's origin and, when the log then has at most one
entry, calls `ytext.toDelta(snapshot)` — modelled from the spec: the
snapshot forces `toDelta` to open one cleanup transaction, i.e. a
`transact` with origin `"cleanup"` — followed by
`block.transact(fn, "nested")`.  Finally, when further transactions are
queued the function recurses at `i + 1`, and otherwise resets
`_transactionCleanups` to `[]`. -/
def runCleanup : Nat → TQState → Nat → TQState
  | 0, s, _ => s
  | fuel + 1, s, i =>
    match s.queue.get? i with
    | none => s
    | some o =>
      let numBefore := s.origins.length
      let s1 : TQState := { s with origins := s.origins ++ [o] }
      let s2 :=
        if numBefore ≤ 0 then
          runBody fuel s1 (.seq (.tcall "cleanup" .skip) (.tcall "nested" .skip))
        else s1
      if s2.queue.length ≤ i + 1 then { s2 with queue := [] }
      else runCleanup fuel s2 (i + 1)

end

end NanoYjs

namespace NanoYjs

/-! ## Theorems -/

/-- C4: the claim says the Unref appended by a local Ref deletion carries
`client` and `clock` equal to the deleted Ref item's id.  The code appends
exactly one Unref, but `addUnrefToBlock` builds the options object with the
keys `refClient` / `refClock` while the `ContentBlockUnref` constructor
reads `opts.client` / `opts.clock`, so the appended Unref carries
`undefined` in both fields.  Evaluation of the code at the failing input:
a Ref with target block `"b"` carried by the item with id
`(client 1, clock 2)`. -/
theorem C4_unref_fields_undefined :
    addUnrefToBlock [] { blockId := "b", item := some ⟨1, 2⟩ } =
      [{ blockId := .str "b", client := .undefined, clock := .undefined }] ∧
    JsVal.undefined ≠ JsVal.num 1 ∧ JsVal.undefined ≠ JsVal.num 2 := by
  refine ⟨rfl, ?_, ?_⟩ <;> decide

/-- C5: integrating an Unref in a transaction that has a store transaction
sets `item.keep = true` but then throws a TypeError, because
`ContentBlockUnref.integrate` calls
`transaction.storeTransaction.blockUnrefsAdded.add(this)` while the
`StoreTransaction` constructor never defines a `blockUnrefsAdded` field.
The claim says the Unref is recorded there without error. -/
theorem C5_integrate_throws :
    ContentBlockUnref.integrate true { keep := false } =
      ({ keep := true },
       some "TypeError: cannot call add on undefined blockUnrefsAdded") ∧
    "blockUnrefsAdded" ∉ storeTransactionFields := by
  exact ⟨by decide, by decide⟩

/-- C6 counterexample: the claim says the *store's* `client_id` is replaced
by a fresh random id.  At a concrete non-local cleanup where the collision
condition holds (store client id 5, before-state clock 1, after-state clock
3, fresh id 99), the code assigns the fresh id to `block.clientID` only:
the store's `clientID` stays 5 and is not replaced by the fresh id 99. -/
theorem C6_store_clientID_not_replaced :
    (clientIdRegenStep ⟨5⟩ ⟨5, [(5, [0])]⟩ false [(5, 1)] [(5, 3)] 99).1 =
      NanoStoreView.mk 5 ∧ (5 : Nat) ≠ 99 := by
  exact ⟨by decide, by decide⟩

/-- C6 as amended: for every non-local transaction cleanup that finds
`afterState[block.clientID] ≠ beforeState[block.clientID]`, the *block's*
`clientID` is replaced by the fresh random id, while the store's `clientID`
and the block's already-written per-client struct logs are unchanged, and
no error is raised (the step is total). -/
theorem C6_block_clientID_regenerated
    (store : NanoStoreView) (block : NanoBlockView)
    (beforeState afterState : List (Nat × Nat)) (freshId : Nat)
    (h : svGet afterState block.clientID ≠ svGet beforeState block.clientID) :
    clientIdRegenStep store block false beforeState afterState freshId =
      (store, { block with clientID := freshId }) := by
  simp [clientIdRegenStep, h]

/-- Witness for `C6_block_clientID_regenerated` at a concrete input. -/
theorem C6_block_clientID_regenerated_witness :
    clientIdRegenStep ⟨5⟩ ⟨5, [(5, [0])]⟩ false [(5, 1)] [(5, 3)] 99 =
      (⟨5⟩, ⟨99, [(5, [0])]⟩) := by
  exact C6_block_clientID_regenerated ⟨5⟩ ⟨5, [(5, [0])]⟩ [(5, 1)] [(5, 3)] 99
    (by decide)

/-- C7 counterexample: the claim says every `AbstractType` input that does
not belong to a block as a non-root type makes the constructor return
normally.  A plain `AbstractType` instance (belonging to no block) makes
`getBlockTypeFromInstance` throw `Unexpected type` inside the constructor,
so the constructor does not return normally on it. -/
theorem C7_plain_abstract_type_throws :
    ContentBlockRef.ctor (.inl { kind := .abstract, tid := 0, block := none }) =
      .error "Unexpected type" := by
  rfl

/-- C7 as amended: constructing a `ContentBlockRef` from an `AbstractType`
that belongs to a block but is not that block's root type throws the
root-type error; every other `AbstractType` input *that is an instance of
one of the six concrete type classes* returns normally; a plain
`AbstractType` instance throws `Unexpected type` from
`getBlockTypeFromInstance` instead. -/
theorem C7_ctor_cases (t : AbstractTypeView) :
    (∀ b, t.block = some b → b.rootTid ≠ t.tid →
      ContentBlockRef.ctor (.inl t) =
        .error "You can create a ref only for the root type of a block") ∧
    (t.kind ≠ .abstract → (∀ b, t.block = some b → b.rootTid = t.tid) →
      ∃ st, ContentBlockRef.ctor (.inl t) = .ok st) ∧
    (t.kind = .abstract → (∀ b, t.block = some b → b.rootTid = t.tid) →
      ContentBlockRef.ctor (.inl t) = .error "Unexpected type") := by
  refine ⟨?_, ?_, ?_⟩
  · intro b hb hne
    simp [ContentBlockRef.ctor, hb, hne]
  · intro hk hroot
    cases hb : t.block with
    | some b =>
      have := hroot b hb
      cases hkind : t.kind <;>
        simp_all [ContentBlockRef.ctor, getBlockTypeFromInstance]
    | none =>
      cases hkind : t.kind <;>
        simp_all [ContentBlockRef.ctor, getBlockTypeFromInstance]
  · intro hk hroot
    cases hb : t.block with
    | some b =>
      have := hroot b hb
      simp_all [ContentBlockRef.ctor, getBlockTypeFromInstance]
    | none =>
      simp_all [ContentBlockRef.ctor, getBlockTypeFromInstance]

/-- Witness for `C7_ctor_cases`: a root-owning input throws the root-type
error, a block-less `YArray` instance constructs normally, and a plain
`AbstractType` throws `Unexpected type`. -/
theorem C7_ctor_cases_witness :
    ContentBlockRef.ctor
        (.inl { kind := .ymap, tid := 1, block := some ⟨"b", 2⟩ }) =
      .error "You can create a ref only for the root type of a block" ∧
    (∃ st, ContentBlockRef.ctor
        (.inl { kind := .yarray, tid := 3, block := none }) = .ok st) ∧
    ContentBlockRef.ctor (.inl { kind := .abstract, tid := 4, block := none }) =
      .error "Unexpected type" := by
  refine ⟨?_, ?_, ?_⟩
  · exact (C7_ctor_cases { kind := .ymap, tid := 1, block := some ⟨"b", 2⟩ }).1
      ⟨"b", 2⟩ rfl (by decide)
  · exact (C7_ctor_cases { kind := .yarray, tid := 3, block := none }).2.1
      (by decide) (by intro b hb; cases hb)
  · exact (C7_ctor_cases { kind := .abstract, tid := 4, block := none }).2.2
      rfl (by intro b hb; cases hb)

/-- C8 counterexample: the claim says requesting a block by id with a
`block_type` different from the registered block's type is an error
condition visible to users.  With block `"b"` registered as a `map`,
`getOrCreateBlock "b" array` silently returns that existing map block and
leaves the store unchanged — no error of any kind is raised. -/
theorem C8_mismatch_returns_existing :
    NanoStoreSt.getOrCreateBlock ⟨[("b", ⟨"b", .map⟩)]⟩ "b" .array "fresh" =
      (⟨[("b", ⟨"b", .map⟩)]⟩, ⟨"b", .map⟩) ∧
    BlockType.map ≠ BlockType.array := by
  exact ⟨by decide, by decide⟩

/-- C8 as amended: whenever a block with the requested id is already
registered, `getOrCreateBlock` returns it unchanged — regardless of whether
its `blockType` matches the requested type — and does not modify the store;
no error is raised. -/
theorem C8_getOrCreateBlock_silent (s : NanoStoreSt) (id : String)
    (t : BlockType) (freshId : String) (b : StoreBlockSt)
    (h : s.getBlock id = some b) :
    s.getOrCreateBlock id t freshId = (s, b) := by
  simp [NanoStoreSt.getOrCreateBlock, h]

/-- Witness for `C8_getOrCreateBlock_silent` at a concrete input with a
mismatched type. -/
theorem C8_getOrCreateBlock_silent_witness :
    NanoStoreSt.getOrCreateBlock ⟨[("b", ⟨"b", .map⟩)]⟩ "b" .array "f" =
      (⟨[("b", ⟨"b", .map⟩)]⟩, ⟨"b", .map⟩) := by
  exact C8_getOrCreateBlock_silent ⟨[("b", ⟨"b", .map⟩)]⟩ "b" .array "f"
    ⟨"b", .map⟩ (by decide)

/-- C9: for the `testAfterTransactionRecursion` scenario — an
`afterTransaction` observer that on its first call opens a snapshot-driven
cleanup transaction and a nested `transact` with origin `"nested"` — an
outer `transact` with origin `"first"` yields exactly the observed origin
sequence `["first", "cleanup", "nested"]`, the queue is drained and reset,
and no transaction is active at the end: queued cleanup transactions are
processed serially by the outermost call, never nested. -/
theorem C9_after_transaction_recursion :
    runTransact 10 ⟨[], none, []⟩ "first" .skip =
      ⟨[], none, ["first", "cleanup", "nested"]⟩ := by
  rfl

/-- Whenever the full block chain from a start point enumerates to `bs`
within the fuel, the source's early-stopping walk ends within the same fuel
and reports exactly whether `bid` occurs in `bs`. -/
theorem refChainFind_eq_of_chain (g : ItemGraph) (bid : String) :
    ∀ (fuel : Nat) (n : Option Nat) (bs : List String),
      chainBlocksFrom g fuel n = some bs →
      refChainFind g bid fuel n = some (decide (bid ∈ bs)) := by
  intro fuel
  induction fuel with
  | zero => intro n bs h; simp [chainBlocksFrom] at h
  | succ f ih =>
    intro n bs h
    match n with
    | none =>
      simp [chainBlocksFrom] at h
      subst h
      simp [refChainFind]
    | some it =>
      simp only [chainBlocksFrom] at h
      simp only [refChainFind]
      cases hib : g.itemBlock it with
      | none =>
        rw [hib] at h
        simp at h
        subst h
        simp
      | some b =>
        rw [hib] at h
        simp only [Option.map_eq_some'] at h
        obtain ⟨bs', hc, hcons⟩ := h
        subst hcons
        show (if b = bid then some true else refChainFind g bid f (g.referrer b)) =
          some (decide (bid ∈ b :: bs'))
        by_cases hbb : b = bid
        · subst hbb
          simp
        · rw [if_neg hbb, ih (g.referrer b) bs' hc]
          have hsym : bid ≠ b := fun hh => hbb hh.symm
          simp [List.mem_cons, hsym]

/-- Whenever the left chain from a start point enumerates to `L` within the
fuel, the source's index-computation loop returns the number of countable
non-deleted items in `L`. -/
theorem countLeftLoop_eq_of_chain (g : ItemGraph) :
    ∀ (fuel : Nat) (n : Option Nat) (L : List Nat),
      leftChainList g fuel n = some L →
      countLeftLoop g fuel n =
        (L.filter (fun i => !g.deleted i && g.countable i)).length := by
  intro fuel
  induction fuel with
  | zero => intro n L h; simp [leftChainList] at h
  | succ f ih =>
    intro n L h
    match n with
    | none =>
      simp [leftChainList] at h
      subst h
      simp [countLeftLoop]
    | some it =>
      simp only [leftChainList] at h
      match hc : leftChainList g f (g.left it) with
      | none => rw [hc] at h; simp at h
      | some L' =>
        rw [hc] at h
        simp at h
        subst h
        simp only [countLeftLoop, ih (g.left it) L' hc, List.filter_cons]
        by_cases hcnt : (!g.deleted it && g.countable it) = true
        · simp [hcnt, Nat.add_comm]
        · simp [hcnt]

/-- C3 counterexample: the claim says a Ref item on a detected cycle is
removed from its container via `map.delete(parentSub)` whenever `parentSub`
is set.  For the non-deleted item `0` of `emptyKeyGraph` — which sits in a
map under the key `""` and whose chain `["A"]` contains its content's
target block id `"A"` — `validateCircularRef` performs no container call at
all (the JavaScript truthiness test `item.parentSub` is false for the empty
string and the `parentSub == null` test is false as well), instead of the
claimed `map.delete`. -/
theorem C3_empty_key_item_not_removed :
    validateCircularRef emptyKeyGraph 0 "A" 2 2 = some [] ∧
    chainBlocksFrom emptyKeyGraph 2 (some 0) = some ["A"] ∧
    emptyKeyGraph.deleted 0 = false ∧
    emptyKeyGraph.parentSub 0 = some "" ∧
    (some [] : Option (List ContainerAct)) ≠ some [.mapDelete ""] := by
  refine ⟨rfl, rfl, rfl, rfl, by decide⟩

/-- C3 as amended: for a non-deleted Ref item whose full referrer chain
enumerates to `bs` within the fuel, `validateCircularRef` removes the item
— `map.delete(parentSub)` when `parentSub` is a non-empty string,
`array.delete` at the count of countable non-deleted items to the item's
left when `parentSub` is null, and (deviating from the claim) no container
call at all when `parentSub` is the empty string — exactly when some block
on the chain has the content's target block id, inserting no replacement;
when no block on the chain matches, the container is left unchanged. -/
theorem C3_validate_circular_ref (g : ItemGraph) (itemId : Nat)
    (blockId : String) (walkFuel leftFuel : Nat) (bs : List String)
    (hnd : g.deleted itemId = false)
    (hchain : chainBlocksFrom g walkFuel (some itemId) = some bs) :
    (blockId ∈ bs →
      (∀ k, g.parentSub itemId = some k → k ≠ "" →
        validateCircularRef g itemId blockId walkFuel leftFuel =
          some [.mapDelete k]) ∧
      (g.parentSub itemId = some "" →
        validateCircularRef g itemId blockId walkFuel leftFuel = some []) ∧
      (∀ L, g.parentSub itemId = none →
        leftChainList g leftFuel (g.left itemId) = some L →
        validateCircularRef g itemId blockId walkFuel leftFuel =
          some [.arrayDelete
            ((L.filter (fun i => !g.deleted i && g.countable i)).length)])) ∧
    (blockId ∉ bs →
      validateCircularRef g itemId blockId walkFuel leftFuel = some []) := by
  have hfind := refChainFind_eq_of_chain g blockId walkFuel (some itemId) bs hchain
  constructor
  · intro hmem
    rw [(by simp [hmem] : decide (blockId ∈ bs) = true)] at hfind
    refine ⟨?_, ?_, ?_⟩
    · intro k hk hkne
      simp [validateCircularRef, hnd, hfind, hk, hkne]
    · intro hk
      simp [validateCircularRef, hnd, hfind, hk]
    · intro L hps hL
      simp [validateCircularRef, hnd, hfind, hps,
        countLeftLoop_eq_of_chain g leftFuel (g.left itemId) L hL]
  · intro hmem
    rw [(by simp [hmem] : decide (blockId ∈ bs) = false)] at hfind
    simp [validateCircularRef, hnd, hfind]

/-- Witness for `C3_validate_circular_ref`: on `arrayCaseGraph` the chain
of item `0` is `["B", "A"]`, so a Ref targeting `"A"` is removed by
`array.delete 1` (one countable non-deleted left neighbour), and a Ref
targeting `"C"` leaves the container unchanged. -/
theorem C3_validate_circular_ref_witness :
    validateCircularRef arrayCaseGraph 0 "A" 3 3 = some [.arrayDelete 1] ∧
    validateCircularRef arrayCaseGraph 0 "C" 3 3 = some [] := by
  constructor
  · have h := (C3_validate_circular_ref arrayCaseGraph 0 "A" 3 3 ["B", "A"]
      rfl rfl).1 (by decide)
    exact h.2.2 [1] rfl rfl
  · exact (C3_validate_circular_ref arrayCaseGraph 0 "C" 3 3 ["B", "A"]
      rfl rfl).2 (by decide)

/-- Membership after JavaScript `Set.add`. -/
theorem mem_setAdd (l : List Nat) (a r : Nat) :
    a ∈ setAdd l r ↔ a ∈ l ∨ a = r := by
  unfold setAdd
  by_cases hr : r ∈ l
  · rw [if_pos hr]
    exact ⟨fun h => Or.inl h, fun h => h.elim id (fun e => e ▸ hr)⟩
  · rw [if_neg hr]
    simp [List.mem_append]

/-- JavaScript `Set.add` preserves duplicate-freedom. -/
theorem nodup_setAdd (l : List Nat) (r : Nat) (h : l.Nodup) :
    (setAdd l r).Nodup := by
  unfold setAdd
  by_cases hr : r ∈ l
  · rw [if_pos hr]; exact h
  · rw [if_neg hr]
    simp only [List.nodup_append, List.nodup_cons, List.not_mem_nil,
      not_false_iff, List.nodup_nil, and_true, true_and, h]
    intro a ha heq
    exact hr ((List.mem_singleton.mp heq) ▸ ha)

/-- Characterization of the `blockRefsAdded` / `blockRefsRemoved` sets
after any lifecycle-respecting operation sequence: both are duplicate-free;
a ref is in `blockRefsAdded` exactly when it was integrated and not deleted
in this store transaction, and in `blockRefsRemoved` exactly when it was
deleted without having been integrated in this store transaction. -/
theorem runRefOps_char (t : List RefOp) (h : RefLifecycle t) :
    (runRefOps t).added.Nodup ∧ (runRefOps t).removed.Nodup ∧
    (∀ r, (r ∈ (runRefOps t).added ↔
        (RefOp.integrateRef r ∈ t ∧ RefOp.deleteRef r ∉ t)) ∧
      (r ∈ (runRefOps t).removed ↔
        (RefOp.deleteRef r ∈ t ∧ RefOp.integrateRef r ∉ t))) := by
  induction t using List.reverseRecOn with
  | nil =>
    refine ⟨List.nodup_nil, List.nodup_nil, ?_⟩
    intro r
    simp [runRefOps]
  | append_singleton l op ih =>
    rw [RefLifecycle, List.pairwise_append] at h
    obtain ⟨hl, -, hcross⟩ := h
    have hR : ∀ a ∈ l, ∀ r, a = RefOp.deleteRef r →
        op ≠ RefOp.integrateRef r ∧ op ≠ RefOp.deleteRef r := by
      intro a ha r harel
      exact hcross a ha op (List.mem_singleton_self op) r harel
    obtain ⟨hnd1, hnd2, hmem⟩ := ih hl
    have hrun : runRefOps (l ++ [op]) = refSetsStep (runRefOps l) op := by
      simp [runRefOps, List.foldl_append]
    rw [hrun]
    cases op with
    | integrateRef r0 =>
      have hd0 : RefOp.deleteRef r0 ∉ l := by
        intro hin
        exact (hR _ hin r0 rfl).1 rfl
      refine ⟨nodup_setAdd _ _ hnd1, hnd2, ?_⟩
      intro r
      constructor
      · rw [show (refSetsStep (runRefOps l) (RefOp.integrateRef r0)).added =
            setAdd (runRefOps l).added r0 from rfl, mem_setAdd]
        constructor
        · rintro (hin | rfl)
          · have hh := (hmem r).1.mp hin
            refine ⟨List.mem_append.mpr (Or.inl hh.1), ?_⟩
            intro hc
            rcases List.mem_append.mp hc with h1 | h1
            · exact hh.2 h1
            · exact RefOp.noConfusion (List.mem_singleton.mp h1)
          · refine ⟨List.mem_append.mpr (Or.inr (List.mem_singleton_self _)), ?_⟩
            intro hc
            rcases List.mem_append.mp hc with h1 | h1
            · exact hd0 h1
            · exact RefOp.noConfusion (List.mem_singleton.mp h1)
        · rintro ⟨hint, hdel⟩
          rcases List.mem_append.mp hint with h1 | h1
          · exact Or.inl ((hmem r).1.mpr
              ⟨h1, fun hc => hdel (List.mem_append.mpr (Or.inl hc))⟩)
          · have : r = r0 := by
              cases List.mem_singleton.mp h1
              rfl
            exact Or.inr this
      · rw [show (refSetsStep (runRefOps l) (RefOp.integrateRef r0)).removed =
            (runRefOps l).removed from rfl]
        rw [(hmem r).2]
        by_cases hrr : r = r0
        · subst hrr
          constructor
          · rintro ⟨hdel, -⟩
            exact absurd hdel hd0
          · rintro ⟨-, hint⟩
            exact absurd (List.mem_append.mpr
              (Or.inr (List.mem_singleton_self _))) hint
        · constructor
          · rintro ⟨hdel, hint⟩
            refine ⟨List.mem_append.mpr (Or.inl hdel), ?_⟩
            intro hc
            rcases List.mem_append.mp hc with h1 | h1
            · exact hint h1
            · exact hrr (by cases List.mem_singleton.mp h1; rfl)
          · rintro ⟨hdel, hint⟩
            rcases List.mem_append.mp hdel with h1 | h1
            · exact ⟨h1, fun hc => hint (List.mem_append.mpr (Or.inl hc))⟩
            · exact absurd (List.mem_singleton.mp h1) (by intro hc; cases hc)
    | deleteRef r0 =>
      have hd0 : RefOp.deleteRef r0 ∉ l := by
        intro hin
        exact (hR _ hin r0 rfl).2 rfl
      by_cases hmem0 : r0 ∈ (runRefOps l).added
      · have hint0 : RefOp.integrateRef r0 ∈ l := ((hmem r0).1.mp hmem0).1
        rw [show refSetsStep (runRefOps l) (RefOp.deleteRef r0) =
            { runRefOps l with added := (runRefOps l).added.erase r0 } from by
          simp [refSetsStep, hmem0]]
        refine ⟨hnd1.erase r0, hnd2, ?_⟩
        intro r
        constructor
        · rw [show ({ runRefOps l with
              added := (runRefOps l).added.erase r0 } : RefSets).added =
            (runRefOps l).added.erase r0 from rfl, hnd1.mem_erase_iff]
          by_cases hrr : r = r0
          · subst hrr
            constructor
            · rintro ⟨hne, -⟩
              exact absurd rfl hne
            · rintro ⟨-, hdel⟩
              exact absurd (List.mem_append.mpr
                (Or.inr (List.mem_singleton_self _))) hdel
          · rw [(hmem r).1]
            constructor
            · rintro ⟨-, hint, hdel⟩
              refine ⟨List.mem_append.mpr (Or.inl hint), ?_⟩
              intro hc
              rcases List.mem_append.mp hc with h1 | h1
              · exact hdel h1
              · exact hrr (by cases List.mem_singleton.mp h1; rfl)
            · rintro ⟨hint, hdel⟩
              refine ⟨hrr, ?_, fun hc => hdel (List.mem_append.mpr (Or.inl hc))⟩
              rcases List.mem_append.mp hint with h1 | h1
              · exact h1
              · exact absurd (List.mem_singleton.mp h1) (by intro hc; cases hc)
        · rw [show ({ runRefOps l with
              added := (runRefOps l).added.erase r0 } : RefSets).removed =
            (runRefOps l).removed from rfl, (hmem r).2]
          by_cases hrr : r = r0
          · subst hrr
            constructor
            · rintro ⟨hdel, -⟩
              exact absurd hdel hd0
            · rintro ⟨-, hint⟩
              exact absurd (List.mem_append.mpr (Or.inl hint0)) hint
          · constructor
            · rintro ⟨hdel, hint⟩
              refine ⟨List.mem_append.mpr (Or.inl hdel), ?_⟩
              intro hc
              rcases List.mem_append.mp hc with h1 | h1
              · exact hint h1
              · exact absurd (List.mem_singleton.mp h1) (by intro hc; cases hc)
            · rintro ⟨hdel, hint⟩
              rcases List.mem_append.mp hdel with h1 | h1
              · exact ⟨h1, fun hc => hint (List.mem_append.mpr (Or.inl hc))⟩
              · exact (hrr (by cases List.mem_singleton.mp h1; rfl)).elim
      · have hint0 : RefOp.integrateRef r0 ∉ l := by
          intro hin
          exact hmem0 ((hmem r0).1.mpr ⟨hin, hd0⟩)
        rw [show refSetsStep (runRefOps l) (RefOp.deleteRef r0) =
            { runRefOps l with
              removed := setAdd (runRefOps l).removed r0 } from by
          simp [refSetsStep, hmem0]]
        refine ⟨hnd1, nodup_setAdd _ _ hnd2, ?_⟩
        intro r
        constructor
        · rw [show ({ runRefOps l with
              removed := setAdd (runRefOps l).removed r0 } : RefSets).added =
            (runRefOps l).added from rfl, (hmem r).1]
          by_cases hrr : r = r0
          · subst hrr
            constructor
            · rintro ⟨hint, -⟩
              exact absurd hint hint0
            · rintro ⟨-, hdel⟩
              exact absurd (List.mem_append.mpr
                (Or.inr (List.mem_singleton_self _))) hdel
          · constructor
            · rintro ⟨hint, hdel⟩
              refine ⟨List.mem_append.mpr (Or.inl hint), ?_⟩
              intro hc
              rcases List.mem_append.mp hc with h1 | h1
              · exact hdel h1
              · exact hrr (by cases List.mem_singleton.mp h1; rfl)
            · rintro ⟨hint, hdel⟩
              rcases List.mem_append.mp hint with h1 | h1
              · exact ⟨h1, fun hc => hdel (List.mem_append.mpr (Or.inl hc))⟩
              · exact absurd (List.mem_singleton.mp h1) (by intro hc; cases hc)
        · rw [show ({ runRefOps l with
              removed := setAdd (runRefOps l).removed r0 } : RefSets).removed =
            setAdd (runRefOps l).removed r0 from rfl, mem_setAdd]
          constructor
          · rintro (hin | rfl)
            · have hh := (hmem r).2.mp hin
              refine ⟨List.mem_append.mpr (Or.inl hh.1), ?_⟩
              intro hc
              rcases List.mem_append.mp hc with h1 | h1
              · exact hh.2 h1
              · exact RefOp.noConfusion (List.mem_singleton.mp h1)
            · refine ⟨List.mem_append.mpr (Or.inr (List.mem_singleton_self _)), ?_⟩
              intro hc
              rcases List.mem_append.mp hc with h1 | h1
              · exact hint0 h1
              · exact RefOp.noConfusion (List.mem_singleton.mp h1)
          · rintro ⟨hdel, hint⟩
            rcases List.mem_append.mp hdel with h1 | h1
            · exact Or.inl ((hmem r).2.mpr
                ⟨h1, fun hc => hint (List.mem_append.mpr (Or.inl hc))⟩)
            · exact Or.inr (by cases List.mem_singleton.mp h1; rfl)

/-- C10: in every lifecycle-respecting operation sequence of one store
transaction, the sets `blockRefsAdded` and `blockRefsRemoved` are disjoint
at all times (after every prefix of the sequence); and a ref that is
integrated and then deleted in the same store transaction ends up in
neither set — it was removed from `blockRefsAdded` instead of being added
to `blockRefsRemoved` — so the `resolveBlockRefs` cleanup step, which
iterates exactly these two sets, processes it neither as an addition nor
as a removal. -/
theorem C10_added_removed_disjoint (t : List RefOp) (h : RefLifecycle t) :
    (∀ p, p <+: t →
      ∀ r, ¬(r ∈ (runRefOps p).added ∧ r ∈ (runRefOps p).removed)) ∧
    (∀ r, RefOp.integrateRef r ∈ t → RefOp.deleteRef r ∈ t →
      r ∉ (runRefOps t).added ∧ r ∉ (runRefOps t).removed) := by
  constructor
  · intro p hp r ⟨hadd, hrem⟩
    have hlp : RefLifecycle p := List.Pairwise.sublist hp.sublist h
    obtain ⟨-, -, hmem⟩ := runRefOps_char p hlp
    have h1 := (hmem r).1.mp hadd
    have h2 := (hmem r).2.mp hrem
    exact h1.2 h2.1
  · intro r hint hdel
    obtain ⟨-, -, hmem⟩ := runRefOps_char t h
    constructor
    · intro hc
      exact ((hmem r).1.mp hc).2 hdel
    · intro hc
      exact ((hmem r).2.mp hc).2 hint

/-- Witness for `C10_added_removed_disjoint`: the ref `1` is integrated and
then deleted in the same store transaction; afterwards it is in neither
set, and the sets were disjoint after every prefix. -/
theorem C10_added_removed_disjoint_witness :
    (¬(1 ∈ (runRefOps [RefOp.integrateRef 1, RefOp.deleteRef 1]).added ∧
       1 ∈ (runRefOps [RefOp.integrateRef 1, RefOp.deleteRef 1]).removed)) ∧
    (1 ∉ (runRefOps [RefOp.integrateRef 1, RefOp.deleteRef 1]).added ∧
     1 ∉ (runRefOps [RefOp.integrateRef 1, RefOp.deleteRef 1]).removed) := by
  have hlc : RefLifecycle [RefOp.integrateRef 1, RefOp.deleteRef 1] := by
    refine List.Pairwise.cons ?_ (List.Pairwise.cons ?_ List.Pairwise.nil)
    · intro b hb r heq
      exact RefOp.noConfusion heq
    · intro b hb
      exact absurd hb (List.not_mem_nil b)
  have hthm := C10_added_removed_disjoint
    [RefOp.integrateRef 1, RefOp.deleteRef 1] hlc
  exact ⟨hthm.1 _ (List.prefix_rfl) 1,
    hthm.2 1 (List.mem_cons_self _ _)
      (List.mem_cons_of_mem _ (List.mem_cons_self _ _))⟩

/-- Lookup of a cons cell. -/
theorem alookup_cons {κ α : Type} [BEq κ] (a : κ) (v : α)
    (l : List (κ × α)) (k : κ) :
    alookup ((a, v) :: l) k = if a == k then some v else alookup l k := by
  cases h : (a == k) <;> simp [alookup, List.find?_cons, h]

/-- Lookup after a point update of an association list. -/
theorem alookup_aupdate {κ α : Type} [BEq κ] [LawfulBEq κ]
    (l : List (κ × α)) (k k' : κ) (f : α → α) :
    alookup (aupdate l k f) k' =
      if k' == k then (alookup l k').map f else alookup l k' := by
  induction l with
  | nil =>
    cases h : (k' == k) <;> simp [alookup, aupdate, h]
  | cons hd tl ih =>
    obtain ⟨a, v⟩ := hd
    rw [show aupdate ((a, v) :: tl) k f =
      (if a == k then (a, f v) else (a, v)) :: aupdate tl k f from rfl]
    by_cases h1 : a = k <;> by_cases h2 : a = k'
    · have e1 : (a == k) = true := by simp [h1]
      have e2 : (a == k') = true := by simp [h2]
      have e3 : (k' == k) = true := by simp [← h2, ← h1]
      simp [alookup_cons, e1, e2, e3]
    · have e1 : (a == k) = true := by simp [h1]
      have e2 : (a == k') = false := by simp [h2]
      have e3 : (k' == k) = false := by
        simp only [beq_eq_false_iff_ne, ne_eq]
        intro he
        exact h2 (h1.trans he.symm)
      simp [alookup_cons, e1, e2, e3, ih]
    · have e1 : (a == k) = false := by simp [h1]
      have e2 : (a == k') = true := by simp [h2]
      have e3 : (k' == k) = false := by
        simp only [beq_eq_false_iff_ne, ne_eq]
        intro he
        exact h1 (h2.trans he)
      simp [alookup_cons, e1, e2, e3]
    · have e1 : (a == k) = false := by simp [h1]
      have e2 : (a == k') = false := by simp [h2]
      simp [alookup_cons, e1, e2, ih]

/-- Block lookup after a block point update. -/
theorem RState.block?_updBlock (s : RState) (id id' : String)
    (f : BlockC → BlockC) :
    (s.updBlock id f).block? id' =
      if id' == id then (s.block? id').map f else s.block? id' := by
  simp [RState.updBlock, RState.block?, alookup_aupdate]

/-- Heap updates do not touch the block registry. -/
theorem RState.block?_updRef (s : RState) (rid : Nat) (f : RefC → RefC)
    (id : String) : (s.updRef rid f).block? id = s.block? id := rfl

/-- Ref lookup after a ref point update. -/
theorem RefHeap.ref?_updRef (h : RefHeap) (rid rid' : Nat)
    (f : RefC → RefC) :
    (h.updRef rid f).ref? rid' =
      if rid' == rid then (h.ref? rid').map f else h.ref? rid' := by
  simp [RefHeap.updRef, RefHeap.ref?, alookup_aupdate]

/-- Block point updates do not touch the heap. -/
theorem RState.heap_updBlock (s : RState) (id : String)
    (f : BlockC → BlockC) : (s.updBlock id f).heap = s.heap := rfl

/-- The heap of a state after a ref point update. -/
theorem RState.heap_updRef (s : RState) (rid : Nat) (f : RefC → RefC) :
    (s.updRef rid f).heap = s.heap.updRef rid f := rfl

/-- Ref point updates do not touch the item-content table. -/
theorem RefHeap.contentOf_updRef (h : RefHeap) (rid : Nat)
    (f : RefC → RefC) (it : Nat) :
    (h.updRef rid f).contentOf it = h.contentOf it := rfl

/-- A duplicate-free list whose elements are all equal has at most one
element. -/
theorem length_le_one_of_nodup_all_eq {l : List Nat} (hnd : l.Nodup)
    (a : Nat) (hall : ∀ x ∈ l, x = a) : l.length ≤ 1 := by
  match l with
  | [] => simp
  | [x] => simp
  | x :: y :: tl =>
    have hx : x = a := hall x (List.mem_cons_self _ _)
    have hy : y = a := hall y (List.mem_cons_of_mem _ (List.mem_cons_self _ _))
    have : x ∉ y :: tl := (List.nodup_cons.mp hnd).1
    exact absurd (hy.trans hx.symm ▸ List.mem_cons_self y tl) this

/-- The behavior of `resolveBlockRefs` for a single locally-added ref whose
target block already has a *different* referrer: the state is returned
untouched (the existing referrer in particular), the new ref is the sole
conflict, and the nested `transactInStore` deletes the new ref's item and
re-inserts a clone of the target block in its place. -/
theorem resolveBlockRefs_local_conflict (g : ItemGraph) (lf : Nat)
    (s : RState) (rid itNew curIt : Nat) (r : RefC) (bid : String)
    (b : BlockC) (kN : String)
    (hr : s.heap.ref? rid = some r) (hrb : r.blockId = bid)
    (hri : r.item = some itNew)
    (hb : s.block? bid = some b) (hbr : b.referrer = some curIt)
    (hne : curIt ≠ itNew)
    (hpN : g.parentSub itNew = some kN) (hkN : kN ≠ "") :
    resolveBlockRefs g lf s ⟨true, [rid], []⟩ =
      (s, [rid], some [.mapDelete kN, .mapSet kN bid]) := by
  simp [resolveBlockRefs, processConflict, RState.getOrCreateBlock,
    hr, hrb, hri, hb, hbr, hne, hpN, hkN]

/-- The behavior of `resolveBlockRefs` for a single remotely-added ref
whose target block already has a *different* referrer: the pre-existing
referrer loses — the new ref's item replaces `block._referrer`, the new
ref's `_block` / `_type` caches are set from the block, the old referrer
content's caches are cleared, the old ref is the sole conflict, and the
nested `transactInStore` deletes the old ref's item and re-inserts a clone
of the target block in its place. -/
theorem resolveBlockRefs_remote_conflict (g : ItemGraph) (lf : Nat)
    (s : RState) (rid curRid itNew curIt : Nat) (r curR : RefC)
    (bid : String) (b : BlockC) (kC : String)
    (hr : s.heap.ref? rid = some r) (hrb : r.blockId = bid)
    (hri : r.item = some itNew)
    (hb : s.block? bid = some b) (hbr : b.referrer = some curIt)
    (hne : curIt ≠ itNew)
    (hco : s.heap.contentOf curIt = some curRid)
    (hcr : s.heap.ref? curRid = some curR) (hcrb : curR.blockId = bid)
    (hcri : curR.item = some curIt) (hrids : rid ≠ curRid)
    (hpC : g.parentSub curIt = some kC) (hkC : kC ≠ "") :
    (resolveBlockRefs g lf s ⟨false, [rid], []⟩).2.1 = [curRid] ∧
    (resolveBlockRefs g lf s ⟨false, [rid], []⟩).1.block? bid =
      some { b with referrer := some itNew } ∧
    (resolveBlockRefs g lf s ⟨false, [rid], []⟩).1.heap.ref? rid =
      some { r with blk := some bid, typ := some bid } ∧
    (resolveBlockRefs g lf s ⟨false, [rid], []⟩).1.heap.ref? curRid =
      some { curR with blk := none, typ := none } ∧
    (resolveBlockRefs g lf s ⟨false, [rid], []⟩).2.2 =
      some [.mapDelete kC, .mapSet kC bid] := by
  have hne2 : (rid == curRid) = false := by
    simp [hrids]
  have hne3 : (curRid == rid) = false := by
    simp only [beq_eq_false_iff_ne, ne_eq]
    exact fun he => hrids he.symm
  refine ⟨?_, ?_, ?_, ?_, ?_⟩ <;>
    simp [resolveBlockRefs, processConflict, RState.getOrCreateBlock,
      RState.block?_updBlock, RState.block?_updRef, RState.heap_updBlock,
      RState.heap_updRef, RefHeap.ref?_updRef, RefHeap.contentOf_updRef,
      hr, hrb, hri, hb, hbr, hne, hco, hcr, hcrb, hcri, hpC, hkC,
      hne2, hne3]

/-- C1: referrer uniqueness (I1).  First conjunct: in *every* resolver
state — in particular every state reachable after end-of-transaction
cleanup — at most one item of the store is installed as a given block `B`'s
referrer (a Ref content with `blockId = B.id` that `B._referrer` points
at), and `B._referrer` is `null` or exactly that item.  Second and third
conjuncts: the two branches of `updateBlockReferrer` that replace an
existing referrer clear the previous referrer content's cached
`_block` / `_type` (and record `_prevReferrer`) when installing `null`
resp. a different ref.  Fourth conjunct: the remote-install path of the
`resolveBlockRefs` cleanup step likewise clears the previous referrer
content's caches when it installs the new referrer. -/
theorem C1_referrer_uniqueness :
    (∀ (s : RState) (b : BlockC),
      (installedReferrers s b).length ≤ 1 ∧
      ∀ i, i ∈ installedReferrers s b → b.referrer = some i) ∧
    (∀ (h : RefHeap) (b : BlockC) (old orid : Nat) (oref : RefC),
      b.referrer = some old → h.contentOf old = some orid →
      h.ref? orid = some oref →
      (updateBlockReferrer h b none true).1.ref? orid =
        some { oref with blk := none, typ := none } ∧
      (updateBlockReferrer h b none true).2 =
        { b with referrer := none, prevReferrer := some old }) ∧
    (∀ (h : RefHeap) (b : BlockC) (rid old orid : Nat) (oref : RefC),
      b.referrer = some old → h.contentOf old = some orid →
      h.ref? orid = some oref →
      some old ≠ ((h.ref? rid).bind (fun r => r.item)) →
      (updateBlockReferrer h b (some rid) true).1.ref? orid =
        some { oref with blk := none, typ := none } ∧
      (updateBlockReferrer h b (some rid) true).2 =
        { b with referrer := ((h.ref? rid).bind (fun r => r.item)),
                 prevReferrer := some old }) ∧
    (∀ (g : ItemGraph) (lf : Nat) (s : RState)
      (rid curRid itNew curIt : Nat) (r curR : RefC) (bid : String)
      (b : BlockC) (kC : String),
      s.heap.ref? rid = some r → r.blockId = bid → r.item = some itNew →
      s.block? bid = some b → b.referrer = some curIt → curIt ≠ itNew →
      s.heap.contentOf curIt = some curRid →
      s.heap.ref? curRid = some curR → curR.blockId = bid →
      curR.item = some curIt → rid ≠ curRid →
      g.parentSub curIt = some kC → kC ≠ "" →
      (resolveBlockRefs g lf s ⟨false, [rid], []⟩).1.heap.ref? curRid =
        some { curR with blk := none, typ := none } ∧
      (resolveBlockRefs g lf s ⟨false, [rid], []⟩).1.block? bid =
        some { b with referrer := some itNew }) := by
  refine ⟨?_, ?_, ?_, ?_⟩
  · intro s b
    have hall : ∀ i, i ∈ installedReferrers s b → b.referrer = some i := by
      intro i hi
      have := List.of_mem_filter hi
      simp only [Bool.and_eq_true, beq_iff_eq] at this
      exact this.1
    refine ⟨?_, hall⟩
    cases hbr : b.referrer with
    | none =>
      have : installedReferrers s b = [] := by
        rw [List.eq_nil_iff_forall_not_mem]
        intro i hi
        have := hall i hi
        rw [hbr] at this
        exact Option.noConfusion this
      simp [this]
    | some v =>
      refine length_le_one_of_nodup_all_eq
        (List.Nodup.filter _ (List.nodup_dedup _)) v ?_
      intro x hx
      have := hall x hx
      rw [hbr] at this
      exact (Option.some.injEq _ _ ▸ this).symm
  · intro h b old orid oref hbr hco hre
    constructor
    · simp [updateBlockReferrer, hbr, RefHeap.clearItemContent, hco,
        RefHeap.ref?_updRef, hre]
    · simp [updateBlockReferrer, hbr, RefHeap.clearItemContent, hco]
  · intro h b rid old orid oref hbr hco hre hne
    constructor
    · simp [updateBlockReferrer, hbr, hne, RefHeap.clearItemContent, hco,
        RefHeap.ref?_updRef, hre]
    · simp [updateBlockReferrer, hbr, hne, RefHeap.clearItemContent, hco]
  · intro g lf s rid curRid itNew curIt r curR bid b kC
      hr hrb hri hb hbr hne hco hcr hcrb hcri hrids hpC hkC
    have hh := resolveBlockRefs_remote_conflict g lf s rid curRid itNew curIt
      r curR bid b kC hr hrb hri hb hbr hne hco hcr hcrb hcri hrids hpC hkC
    exact ⟨hh.2.2.2.1, hh.2.1⟩

/-- Witness for `C1_referrer_uniqueness` on the concrete `conflictState`:
uniqueness for block `"b"`, both `updateBlockReferrer` clearing branches,
and the remote-install clearing of `resolveBlockRefs`. -/
theorem C1_referrer_uniqueness_witness :
    ((installedReferrers conflictState
        { id := "b", blockType := .map, referrer := some 10,
          prevReferrer := none }).length ≤ 1) ∧
    ((updateBlockReferrer conflictState.heap
        { id := "b", blockType := .map, referrer := some 10,
          prevReferrer := none } none true).1.ref? 2 =
      some { blockId := "b", blockType := .map, blk := none, typ := none,
             item := some 10 }) ∧
    ((updateBlockReferrer conflictState.heap
        { id := "b", blockType := .map, referrer := some 10,
          prevReferrer := none } (some 1) true).1.ref? 2 =
      some { blockId := "b", blockType := .map, blk := none, typ := none,
             item := some 10 }) ∧
    ((resolveBlockRefs conflictGraph 2 conflictState
        ⟨false, [1], []⟩).1.heap.ref? 2 =
      some { blockId := "b", blockType := .map, blk := none, typ := none,
             item := some 10 }) := by
  refine ⟨?_, ?_, ?_, ?_⟩
  · exact (C1_referrer_uniqueness.1 conflictState
      { id := "b", blockType := .map, referrer := some 10,
        prevReferrer := none }).1
  · exact (C1_referrer_uniqueness.2.1 conflictState.heap
      { id := "b", blockType := .map, referrer := some 10,
        prevReferrer := none } 10 2
      { blockId := "b", blockType := .map, blk := some "b", typ := some "b",
        item := some 10 } rfl rfl rfl).1
  · exact (C1_referrer_uniqueness.2.2.1 conflictState.heap
      { id := "b", blockType := .map, referrer := some 10,
        prevReferrer := none } 1 10 2
      { blockId := "b", blockType := .map, blk := some "b", typ := some "b",
        item := some 10 } rfl rfl rfl (by decide)).1
  · exact (C1_referrer_uniqueness.2.2.2 conflictGraph 2 conflictState 1 2 20 10
      { blockId := "b", blockType := .map, blk := none, typ := none,
        item := some 20 }
      { blockId := "b", blockType := .map, blk := some "b", typ := some "b",
        item := some 10 } "b"
      { id := "b", blockType := .map, referrer := some 10,
        prevReferrer := none } "y"
      rfl rfl rfl rfl rfl (by decide) rfl rfl rfl rfl (by decide) rfl
      (by decide)).1

/-- C2: the conflict winner policy of the `resolveBlockRefs` cleanup step
for an added ref whose target block's `_referrer` is already a different
item.  Local store transaction: the newly added ref is the loser — it is
the sole entry of the conflicts list, the state (in particular the
existing referrer) is untouched, and the nested `transactInStore` call
clones the loser away (deletes its item and re-inserts a clone of the
target block).  Remote store transaction: the pre-existing ref is the
loser — the new ref's item replaces `block._referrer`, the new ref's
`_block` / `_type` are set from the block, the old ref's `_block` /
`_type` are cleared, and the old ref is the sole conflicts entry, cloned
away inside the nested `transactInStore` call. -/
theorem C2_conflict_winner_policy (g : ItemGraph) (lf : Nat) (s : RState)
    (rid curRid itNew curIt : Nat) (r curR : RefC) (bid : String)
    (b : BlockC) (kN kC : String)
    (hr : s.heap.ref? rid = some r) (hrb : r.blockId = bid)
    (hri : r.item = some itNew)
    (hb : s.block? bid = some b) (hbr : b.referrer = some curIt)
    (hne : curIt ≠ itNew) :
    (g.parentSub itNew = some kN → kN ≠ "" →
      resolveBlockRefs g lf s ⟨true, [rid], []⟩ =
        (s, [rid], some [.mapDelete kN, .mapSet kN bid])) ∧
    (s.heap.contentOf curIt = some curRid →
     s.heap.ref? curRid = some curR → curR.blockId = bid →
     curR.item = some curIt → rid ≠ curRid →
     g.parentSub curIt = some kC → kC ≠ "" →
      (resolveBlockRefs g lf s ⟨false, [rid], []⟩).2.1 = [curRid] ∧
      (resolveBlockRefs g lf s ⟨false, [rid], []⟩).1.block? bid =
        some { b with referrer := some itNew } ∧
      (resolveBlockRefs g lf s ⟨false, [rid], []⟩).1.heap.ref? rid =
        some { r with blk := some bid, typ := some bid } ∧
      (resolveBlockRefs g lf s ⟨false, [rid], []⟩).1.heap.ref? curRid =
        some { curR with blk := none, typ := none } ∧
      (resolveBlockRefs g lf s ⟨false, [rid], []⟩).2.2 =
        some [.mapDelete kC, .mapSet kC bid]) := by
  constructor
  · intro hpN hkN
    exact resolveBlockRefs_local_conflict g lf s rid itNew curIt r bid b kN
      hr hrb hri hb hbr hne hpN hkN
  · intro hco hcr hcrb hcri hrids hpC hkC
    exact resolveBlockRefs_remote_conflict g lf s rid curRid itNew curIt
      r curR bid b kC hr hrb hri hb hbr hne hco hcr hcrb hcri hrids hpC hkC

/-- Witness for `C2_conflict_winner_policy` on the concrete
`conflictState` / `conflictGraph` scenario: the local branch leaves the
state untouched and clones away the new ref `1` (map key `"x"`), the
remote branch swaps the referrer to item `20` and clones away the old ref
`2` (map key `"y"`). -/
theorem C2_conflict_winner_policy_witness :
    resolveBlockRefs conflictGraph 2 conflictState ⟨true, [1], []⟩ =
      (conflictState, [1], some [.mapDelete "x", .mapSet "x" "b"]) ∧
    (resolveBlockRefs conflictGraph 2 conflictState ⟨false, [1], []⟩).2.1 =
      [2] ∧
    (resolveBlockRefs conflictGraph 2 conflictState ⟨false, [1], []⟩).2.2 =
      some [.mapDelete "y", .mapSet "y" "b"] := by
  have hh := C2_conflict_winner_policy conflictGraph 2 conflictState 1 2 20 10
    { blockId := "b", blockType := .map, blk := none, typ := none,
      item := some 20 }
    { blockId := "b", blockType := .map, blk := some "b", typ := some "b",
      item := some 10 } "b"
    { id := "b", blockType := .map, referrer := some 10, prevReferrer := none }
    "x" "y" rfl rfl rfl rfl rfl (by decide)
  have h2 := hh.2 rfl rfl rfl rfl (by decide) rfl (by decide)
  exact ⟨hh.1 rfl (by decide), h2.1, h2.2.2.2.2⟩

end NanoYjs
